import Mathlib

/-!
# Verification of the RIVET console front end (`console.cpp`)

This file gives a shallow embedding of the query / output plumbing in
`console.cpp` of the RIVET tool, and proves properties of it:

* `process_barcode_queries` — reads a line-query file, validates and parses
  every line, then queries barcodes and prints one output line per query;
* `print_betti` — prints the three Betti-number sections of a
  template-points message;
* `write_msgpack_file`, `write_template_points_file` and the two
  output-file saving steps of `main` — error propagation and the guard
  that prevents overwriting the input file.

Numbers read from the query file are C++ `double`s produced by stream
extraction of decimal literals; they are embedded as exact rationals `ℚ`
(the claims only involve order comparisons and pass-through, where `double`
behaves exactly on the inputs involved).  Output written with `<<` is
embedded as a token list (`OutTok`), one token per `<<` operand, so the
structure of each printed line is captured without committing to C++
floating-point formatting.
-/

namespace Rivet

/-! ## Characters and whitespace -/

/-- The characters matched by `line.find_first_not_of(" \t")` in
`process_barcode_queries`. -/
def isBlankChar (c : Char) : Bool :=
  c = ' ' || c = '\t'

/-- Whitespace skipped by C++ stream extraction (`std::isspace`, classic
locale): space, tab, newline, vertical tab, form feed, carriage return. -/
def isSpaceChar (c : Char) : Bool :=
  c = ' ' || c = '\t' || c = '\n' || c = '\x0b' || c = '\x0c' || c = '\r'

/-- `line.erase(0, line.find_first_not_of(" \t"))`: remove the leading run
of spaces and tabs (the whole line when it is all blanks, since
`find_first_not_of` then returns `npos`). -/
def stripLeading (cs : List Char) : List Char :=
  cs.dropWhile isBlankChar

/-- The test `line.empty() || line[0] == '#'` applied to the stripped line:
the line is skipped as blank or comment. -/
def isSkipLine (cs : List Char) : Bool :=
  match cs with
  | [] => true
  | c :: _ => c = '#'

/-! ## Parsing two doubles from a line (`iss >> angle >> offset`)

C++ stream extraction of a `double` skips whitespace and then consumes the
longest valid floating literal, failing when none is present.  The model
below covers decimal literals with optional sign, fraction and exponent
(the hexadecimal / `inf` / `nan` forms of the C grammar never occur in
query files and are not modelled). -/

/-- Consume a maximal run of decimal digits, returning the accumulated
value, the number of digits consumed, and the rest of the input. -/
def parseDigits : List Char → Nat → Nat → Nat × Nat × List Char
  | [], acc, n => (acc, n, [])
  | c :: cs, acc, n =>
    if c.isDigit then parseDigits cs (10 * acc + (c.toNat - '0'.toNat)) (n + 1)
    else (acc, n, c :: cs)

/-- `10 ^ e` as a rational, for a signed exponent. -/
def pow10 (e : Int) : ℚ :=
  if 0 ≤ e then mkRat (10 ^ e.toNat) 1 else mkRat 1 (10 ^ (-e).toNat)

/-- Parse an unsigned decimal mantissa `digits [. digits]`; at least one
digit must be present overall.  The value `ip.fp` with `nf` fraction
digits is the exact rational `(ip * 10 ^ nf + fp) / 10 ^ nf`. -/
def parseUnsignedDec (cs : List Char) : Option (ℚ × List Char) :=
  let (ip, ni, rest1) := parseDigits cs 0 0
  match rest1 with
  | '.' :: cs2 =>
    let (fp, nf, rest2) := parseDigits cs2 0 0
    if ni + nf = 0 then none
    else some (mkRat (ip * 10 ^ nf + fp) (10 ^ nf), rest2)
  | _ => if ni = 0 then none else some (mkRat ip 1, rest1)

/-- Parse an optional exponent part `e|E [+|-] digits`.  When the suffix is
not a well-formed exponent it is left unconsumed (as `strtod` does). -/
def parseExponent (cs : List Char) : Option (Int × List Char) :=
  match cs with
  | c :: cs1 =>
    if c = 'e' || c = 'E' then
      match cs1 with
      | '+' :: cs2 =>
        let (e, n, r) := parseDigits cs2 0 0
        if n = 0 then none else some ((e : Int), r)
      | '-' :: cs2 =>
        let (e, n, r) := parseDigits cs2 0 0
        if n = 0 then none else some (-(e : Int), r)
      | cs2 =>
        let (e, n, r) := parseDigits cs2 0 0
        if n = 0 then none else some ((e : Int), r)
    else none
  | [] => none

/-- Mantissa followed by optional exponent. -/
def parseMantissaExp (cs : List Char) : Option (ℚ × List Char) :=
  match parseUnsignedDec cs with
  | none => none
  | some (q, rest) =>
    match parseExponent rest with
    | some (e, rest2) => some (q * pow10 e, rest2)
    | none => some (q, rest)

/-- A signed floating literal. -/
def parseSignedDec (cs : List Char) : Option (ℚ × List Char) :=
  match cs with
  | '-' :: cs1 => (parseMantissaExp cs1).map (fun p => (-p.1, p.2))
  | '+' :: cs1 => parseMantissaExp cs1
  | _ => parseMantissaExp cs

/-- One `iss >> x` extraction of a `double`: skip whitespace, then parse a
floating literal. -/
def extractDouble (cs : List Char) : Option (ℚ × List Char) :=
  parseSignedDec (cs.dropWhile isSpaceChar)

/-- `iss >> angle >> offset`: both extractions must succeed; trailing
characters after the second number are ignored. -/
def extractTwo (cs : List Char) : Option (ℚ × ℚ) :=
  match extractDouble cs with
  | none => none
  | some (a, rest) =>
    match extractDouble rest with
    | none => none
    | some (o, _) => some (a, o)

/-! ## The query loop of `process_barcode_queries` -/

/-- The messages `process_barcode_queries` writes to `std::clog`, by line
number: `"Skipped line N, comment or empty"`, `"Angle on line N must be
between 0 and 90"`, `"Parse error on line N"`. -/
inductive LogMsg where
  | skipped (lineNumber : Nat)
  | angleError (lineNumber : Nat)
  | parseError (lineNumber : Nat)
  deriving DecidableEq, Repr

/-- The `while (std::getline(...))` loop of `process_barcode_queries`:
`n` lines have been consumed so far, `logs` and `queries` are the
accumulated log messages and accepted `(angle, offset)` pairs.  The second
component is `none` when the loop aborted with an early `return` (angle out
of range or parse failure). -/
def processLines :
    List (List Char) → Nat → List LogMsg → List (ℚ × ℚ) →
      List LogMsg × Option (List (ℚ × ℚ))
  | [], _, logs, queries => (logs, some queries)
  | line :: rest, n, logs, queries =>
    if isSkipLine (stripLeading line) then
      processLines rest (n + 1) (logs ++ [LogMsg.skipped (n + 1)]) queries
    else
      match extractTwo (stripLeading line) with
      | some (angle, offset) =>
        if angle < 0 ∨ angle > 90 then
          (logs ++ [LogMsg.angleError (n + 1)], none)
        else
          processLines rest (n + 1) logs (queries ++ [(angle, offset)])
      | none => (logs ++ [LogMsg.parseError (n + 1)], none)

/-! ## Barcodes and the query engine -/

/-- A C++ `double` that may hold `rivet::numeric::INFTY`. -/
inductive DVal where
  | fin (q : ℚ)
  | inf
  deriving DecidableEq, Repr

/-- One bar of a barcode: birth, death (possibly `INFTY`), multiplicity. -/
structure Bar where
  birth : ℚ
  death : DVal
  multiplicity : Nat
  deriving DecidableEq, Repr

/-- Modelled from the spec: the precomputed module-invariants artifact
(`ComputationResult`, defined outside this repository excerpt) is used by
`process_barcode_queries` only through `query_barcodes`; per the spec the
query engine answers each `(angle, offset)` query independently with one
barcode, so the artifact is embedded as its per-query answer function. -/
structure ComputationResult where
  slice : ℚ × ℚ → List Bar

/-- Modelled from the spec: `query_barcodes(artifact, queries) ->
list<Barcode>`, one-to-one with input order (the implementation lives in
`api.cpp`, outside this repository excerpt). -/
def query_barcodes (res : ComputationResult) (queries : List (ℚ × ℚ)) :
    List (List Bar) :=
  queries.map res.slice

/-! ## Output rendering -/

/-- One `<<` operand sent to `std::cout`: a `double`, an unsigned integer,
or a string literal. -/
inductive OutTok where
  | num (value : ℚ)
  | nat (value : Nat)
  | str (text : String)
  deriving DecidableEq, Repr

/-- The body of the bar-printing loop of `process_barcode_queries`:
`cout << bar.birth << " "`, then `"inf"` or `bar.death`, then
`" x" << bar.multiplicity`, then `", "` unless this is the last bar. -/
def barTokens (bar : Bar) (isLast : Bool) : List OutTok :=
  [OutTok.num bar.birth, OutTok.str " "] ++
    (match bar.death with
     | DVal.inf => [OutTok.str "inf"]
     | DVal.fin d => [OutTok.num d]) ++
    [OutTok.str " x", OutTok.nat bar.multiplicity] ++
    (if isLast then [] else [OutTok.str ", "])

/-- The iterator loop over the bars of one barcode (`isLast` is the
`std::next(it) != barcode->end()` test). -/
def renderBars : List Bar → List OutTok
  | [] => []
  | bar :: rest => barTokens bar rest.isEmpty ++ renderBars rest

/-- One output line: `cout << angle << " " << offset << ": "` followed by
the bars of the barcode. -/
def renderQueryLine (query : ℚ × ℚ) (barcode : List Bar) : List OutTok :=
  [OutTok.num query.1, OutTok.str " ", OutTok.num query.2, OutTok.str ": "] ++
    renderBars barcode

/-- The observable behaviour of `process_barcode_queries`: the `clog`
messages and the barcode lines written to `cout`. -/
structure ProcOutput where
  logs : List LogMsg
  output : List (List OutTok)
  deriving DecidableEq, Repr

/-- `process_barcode_queries`, given the lines of the query file: parse and
validate every line first; on an early `return` nothing is printed;
otherwise call `query_barcodes` once and print one line per query, indexing
`queries[i]` and `vec[i]` for `i < queries.size()`. -/
def process_barcode_queries (res : ComputationResult)
    (fileLines : List (List Char)) : ProcOutput :=
  match processLines fileLines 0 [] [] with
  | (logs, none) => ⟨logs, []⟩
  | (logs, some queries) =>
    let vec := query_barcodes res queries
    ⟨logs, (List.range queries.length).map
      (fun i => renderQueryLine (queries.getD i (0, 0)) (vec.getD i []))⟩

/-- The spec's rendering convention for one bar:
`<birth> <death_or_inf> x<multiplicity>`, with `death` rendered as the
literal token `inf` when unbounded. -/
def barRenderingSpec (bar : Bar) : List OutTok :=
  OutTok.num bar.birth :: OutTok.str " " ::
    (match bar.death with
     | DVal.inf => OutTok.str "inf"
     | DVal.fin d => OutTok.num d) ::
    OutTok.str " x" :: OutTok.nat bar.multiplicity :: []

/-- The spec's rendering convention for one output line:
`"<angle> <offset>: <bar>, <bar>, …"`, bars comma-separated. -/
def lineRenderingSpec (query : ℚ × ℚ) (barcode : List Bar) : List OutTok :=
  OutTok.num query.1 :: OutTok.str " " :: OutTok.num query.2 :: OutTok.str ": " ::
    List.intercalate [OutTok.str ", "] (barcode.map barRenderingSpec)

/-- The query file of the spec's concrete scenario: three valid lines and
one commented-out line. -/
def exampleQueryFile : List (List Char) :=
  ["23 -0.22".toList, "67 1.88".toList, "10 0.92".toList, "#100 0.92".toList]

/-! ## `print_betti` -/

/-- One entry of `TemplatePointsMessage::template_points`: a grade position
with the multiplicities of the three Betti-number functions. -/
structure TemplatePoint where
  x : Nat
  y : Nat
  zero : Nat
  one : Nat
  two : Nat
  deriving DecidableEq, Repr

/-- One line printed by `print_betti`: the `"Betti numbers:"` title, an
`"xi_i:"` section header, or a `"(x, y, value)"` point line. -/
inductive BettiLine where
  | title
  | header (xi : Nat)
  | point (x y value : Nat)
  deriving DecidableEq, Repr

/-- The `value` computed in the inner loop of `print_betti`: initialized to
`0`, then assigned `point.zero` / `point.one` / `point.two` according to
`xi`. -/
def bettiValue (xi : Nat) (p : TemplatePoint) : Nat :=
  if xi = 0 then p.zero else if xi = 1 then p.one else if xi = 2 then p.two else 0

/-- The inner loop of `print_betti`: for each template point, print
`(x, y, value)` when `value > 0`. -/
def printBettiSection (pts : List TemplatePoint) (xi : Nat) : List BettiLine :=
  match pts with
  | [] => []
  | p :: rest =>
    (if bettiValue xi p > 0 then [BettiLine.point p.x p.y (bettiValue xi p)] else [])
      ++ printBettiSection rest xi

/-- `print_betti`: the `"Betti numbers:"` title, then for `xi = 0, 1, 2`
the header `"xi_<xi>:"` followed by the section's point lines. -/
def print_betti (pts : List TemplatePoint) : List BettiLine :=
  BettiLine.title ::
    ((List.range 3).map (fun xi => BettiLine.header xi :: printBettiSection pts xi)).flatten

/-! ## Output-file writing in `main`

File-system effects are embedded through a predicate `canOpen` telling
which file names can be opened for writing, and each step reports the list
of files it wrote to (`writes`) together with the error it threw, if any
(`error`).  The serialized payloads (parameters, messages, arrangement)
play no role in the claims and are elided. -/

/-- The command-line parameters of `main` that the saving steps read. -/
structure InputParameters where
  fileName : String
  outputFile : String
  outputFormat : String
  deriving DecidableEq, Repr

/-- `write_msgpack_file`: open the file for writing; on failure throw
`"Could not open <file> for writing."`, otherwise write the msgpack
payload. -/
def write_msgpack_file (canOpen : String → Bool) (file_name : String) :
    Except String Unit :=
  if canOpen file_name then Except.ok ()
  else Except.error ("Could not open " ++ file_name ++ " for writing.")

/-- `write_template_points_file`: open the file for writing; on failure
throw `"Could not open <file> for writing."`. -/
def write_template_points_file (canOpen : String → Bool) (file_name : String) :
    Except String Unit :=
  if canOpen file_name then Except.ok ()
  else Except.error ("Could not open " ++ file_name ++ " for writing.")

/-- The observable effect of one saving step of `main`: which files were
opened for writing, and the error thrown, if any. -/
structure SaveOutcome where
  writes : List String
  error : Option String
  deriving DecidableEq, Repr

/-- The arrangement-saving step at the end of `main`: guarded by
`!params.outputFile.empty() && !(params.fileName == params.outputFile)`;
opens the output file (throwing `"Error: Unable to write file:<file>"` when
it cannot be opened), then writes in the requested format, throwing
`"Unsupported output format: <format>"` for an unknown format. -/
def arrangement_save_step (canOpen : String → Bool) (params : InputParameters) :
    SaveOutcome :=
  if params.outputFile ≠ "" ∧ params.fileName ≠ params.outputFile then
    if canOpen params.outputFile then
      if params.outputFormat = "R0" then ⟨[params.outputFile], none⟩
      else if params.outputFormat = "msgpack" then
        match write_msgpack_file canOpen params.outputFile with
        | Except.ok _ => ⟨[params.outputFile], none⟩
        | Except.error e => ⟨[params.outputFile], some e⟩
      else ⟨[params.outputFile], some ("Unsupported output format: " ++ params.outputFormat)⟩
    else ⟨[], some ("Error: Unable to write file:" ++ params.outputFile)⟩
  else ⟨[], none⟩

/-- The betti-only saving step inside the `template_points_ready` handler:
guarded by `!params.outputFile.empty() && !(params.outputFile ==
params.fileName)`; opens the output file (throwing
`"Error: Unable to write file:<file>"` when it cannot be opened), then
calls `write_msgpack_file`. -/
def betti_save_step (canOpen : String → Bool) (params : InputParameters) :
    SaveOutcome :=
  if params.outputFile ≠ "" ∧ params.outputFile ≠ params.fileName then
    if canOpen params.outputFile then
      match write_msgpack_file canOpen params.outputFile with
      | Except.ok _ => ⟨[params.outputFile], none⟩
      | Except.error e => ⟨[params.outputFile], some e⟩
    else ⟨[], some ("Error: Unable to write file:" ++ params.outputFile)⟩
  else ⟨[], none⟩


theorem processLines_cons_skip (line : List Char) (rest : List (List Char)) (n : Nat)
    (logs : List LogMsg) (qs : List (ℚ × ℚ)) (h : isSkipLine (stripLeading line) = true) :
    processLines (line :: rest) n logs qs =
      processLines rest (n + 1) (logs ++ [LogMsg.skipped (n + 1)]) qs := by
  simp [processLines, h]

theorem processLines_cons_query (line : List Char) (rest : List (List Char)) (n : Nat)
    (logs : List LogMsg) (qs : List (ℚ × ℚ)) (a o : ℚ)
    (hskip : isSkipLine (stripLeading line) = false)
    (hparse : extractTwo (stripLeading line) = some (a, o)) :
    processLines (line :: rest) n logs qs =
      if a < 0 ∨ a > 90 then (logs ++ [LogMsg.angleError (n + 1)], none)
      else processLines rest (n + 1) logs (qs ++ [(a, o)]) := by
  simp [processLines, hskip, hparse]

theorem processLines_cons_parseFail (line : List Char) (rest : List (List Char)) (n : Nat)
    (logs : List LogMsg) (qs : List (ℚ × ℚ))
    (hskip : isSkipLine (stripLeading line) = false)
    (hparse : extractTwo (stripLeading line) = none) :
    processLines (line :: rest) n logs qs = (logs ++ [LogMsg.parseError (n + 1)], none) := by
  simp [processLines, hskip, hparse]

theorem processLines_append (pre suf : List (List Char)) (n : Nat)
    (logs logs' : List LogMsg) (qs qs' : List (ℚ × ℚ))
    (h : processLines pre n logs qs = (logs', some qs')) :
    processLines (pre ++ suf) n logs qs = processLines suf (n + pre.length) logs' qs' := by
  induction pre generalizing n logs qs with
  | nil =>
    simp only [processLines, Prod.mk.injEq, Option.some.injEq] at h
    simp [h.1, h.2]
  | cons line rest ih =>
    show processLines (line :: (rest ++ suf)) n logs qs
      = processLines suf (n + (rest.length + 1)) logs' qs'
    rw [show n + (rest.length + 1) = (n + 1) + rest.length from by omega]
    by_cases hskip : isSkipLine (stripLeading line) = true
    · rw [processLines_cons_skip _ _ _ _ _ hskip] at h
      rw [processLines_cons_skip _ _ _ _ _ hskip]
      exact ih _ _ _ h
    · rw [Bool.not_eq_true] at hskip
      rcases hex : extractTwo (stripLeading line) with _ | ⟨a, o⟩
      · rw [processLines_cons_parseFail _ _ _ _ _ hskip hex] at h
        exact absurd h (by simp)
      · rw [processLines_cons_query _ _ _ _ _ _ _ hskip hex] at h
        by_cases hrange : a < 0 ∨ a > 90
        · rw [if_pos hrange] at h
          exact absurd h (by simp)
        · rw [if_neg hrange] at h
          rw [processLines_cons_query _ _ _ _ _ _ _ hskip hex, if_neg hrange]
          exact ih _ _ _ h

theorem process_barcode_queries_of_none (res : ComputationResult)
    (fileLines : List (List Char)) (logs : List LogMsg)
    (h : processLines fileLines 0 [] [] = (logs, none)) :
    process_barcode_queries res fileLines = ⟨logs, []⟩ := by
  unfold process_barcode_queries
  rw [h]

theorem range_map_getD {α β γ : Type} (xs : List α) (f : α → β) (g : α → β → γ)
    (d₁ : α) (d₂ : β) :
    (List.range xs.length).map (fun i => g (xs.getD i d₁) ((xs.map f).getD i d₂)) =
      xs.map (fun x => g x (f x)) := by
  induction xs with
  | nil => simp
  | cons x rest ih =>
    rw [List.length_cons, List.range_succ_eq_map]
    simp only [List.map_cons, List.map_map, List.getD_cons_zero, List.getD_cons_succ]
    refine congrArg _ ?_
    exact ih

theorem process_barcode_queries_of_some (res : ComputationResult)
    (fileLines : List (List Char)) (logs : List LogMsg) (qs : List (ℚ × ℚ))
    (h : processLines fileLines 0 [] [] = (logs, some qs)) :
    process_barcode_queries res fileLines =
      ⟨logs, qs.map (fun q => renderQueryLine q (res.slice q))⟩ := by
  unfold process_barcode_queries
  rw [h]
  simp only [query_barcodes]
  rw [range_map_getD]

theorem barTokens_eq_spec (b : Bar) (isLast : Bool) :
    barTokens b isLast = barRenderingSpec b ++ (if isLast then [] else [OutTok.str ", "]) := by
  cases hb : b.death <;> cases isLast <;> simp [barTokens, barRenderingSpec, hb]

theorem renderBars_eq_intercalate (bc : List Bar) :
    renderBars bc = List.intercalate [OutTok.str ", "] (bc.map barRenderingSpec) := by
  induction bc with
  | nil => simp [renderBars, List.intercalate]
  | cons b rest ih =>
    cases rest with
    | nil => simp [renderBars, barTokens_eq_spec, List.intercalate, List.intersperse]
    | cons b' rest' =>
      rw [renderBars, barTokens_eq_spec, ih]
      simp [List.intercalate, List.intersperse]

theorem printBettiSection_eq_filter (pts : List TemplatePoint) (xi : Nat) :
    printBettiSection pts xi =
      (pts.filter (fun p => 0 < bettiValue xi p)).map
        (fun p => BettiLine.point p.x p.y (bettiValue xi p)) := by
  induction pts with
  | nil => rfl
  | cons p rest ih =>
    rw [printBettiSection, ih, List.filter_cons]
    by_cases h : 0 < bettiValue xi p
    · simp [h]
    · simp [h]

theorem point_mem_print_betti (pts : List TemplatePoint) (p : TemplatePoint) (xi : Nat)
    (hxi : xi < 3) (hp : p ∈ pts) (hv : 0 < bettiValue xi p) :
    BettiLine.point p.x p.y (bettiValue xi p) ∈ print_betti pts := by
  have hmem : BettiLine.point p.x p.y (bettiValue xi p) ∈ printBettiSection pts xi := by
    rw [printBettiSection_eq_filter]
    exact List.mem_map_of_mem _ (List.mem_filter.mpr ⟨hp, by simpa using hv⟩)
  unfold print_betti
  simp only [List.mem_cons, List.mem_flatten]
  right
  refine ⟨BettiLine.header xi :: printBettiSection pts xi, ?_, by simp [hmem]⟩
  simp only [List.mem_map]
  exact ⟨xi, by simpa [List.mem_range] using hxi, rfl⟩


/-! ## Claim theorems -/

/-- C1: any query line whose angle is strictly less than 0 or strictly
greater than 90 is rejected with a validation error naming the offending
line number, produces no barcode entry for that line, and aborts the
remaining processing of the file; angles exactly 0 and exactly 90 are
accepted. -/
theorem angle_range_validation (res : ComputationResult) (pre rest : List (List Char))
    (line : List Char) (logs : List LogMsg) (qs : List (ℚ × ℚ)) (a o : ℚ)
    (hpre : processLines pre 0 [] [] = (logs, some qs))
    (hskip : isSkipLine (stripLeading line) = false)
    (hparse : extractTwo (stripLeading line) = some (a, o)) :
    ((a < 0 ∨ a > 90) →
      process_barcode_queries res (pre ++ line :: rest) =
        ⟨logs ++ [LogMsg.angleError (pre.length + 1)], []⟩) ∧
    (0 ≤ a → a ≤ 90 →
      processLines (pre ++ line :: rest) 0 [] [] =
        processLines rest (pre.length + 1) logs (qs ++ [(a, o)])) := by
  have happ := processLines_append pre (line :: rest) 0 [] logs [] qs hpre
  constructor
  · intro hrange
    refine process_barcode_queries_of_none res _ _ ?_
    rw [happ, Nat.zero_add, processLines_cons_query _ _ _ _ _ _ _ hskip hparse,
      if_pos hrange]
  · intro h0 h90
    have hno : ¬(a < 0 ∨ a > 90) := by
      rintro (hc | hc)
      · exact absurd h0 (not_le.mpr hc)
      · exact absurd h90 (not_le.mpr hc)
    rw [happ, Nat.zero_add, processLines_cons_query _ _ _ _ _ _ _ hskip hparse,
      if_neg hno]

theorem angle_range_validation_witness :
    process_barcode_queries ⟨fun _ => []⟩ ([] ++ "100 1".toList :: []) =
      ⟨[LogMsg.angleError 1], []⟩ :=
  (angle_range_validation ⟨fun _ => []⟩ [] [] "100 1".toList [] [] 100 1
    (by decide) (by decide) (by decide)).1 (Or.inr (by norm_num))

/-- C2: blank lines and lines beginning with `#` are skipped without
producing a query or output; the spec scenario file with three valid lines
and one commented line yields exactly the three barcode output lines, in
order. -/
theorem skip_blank_and_comment (res : ComputationResult) :
    (∀ (line : List Char) (rest : List (List Char)) (n : Nat) (logs : List LogMsg)
        (qs : List (ℚ × ℚ)), isSkipLine (stripLeading line) = true →
      processLines (line :: rest) n logs qs =
        processLines rest (n + 1) (logs ++ [LogMsg.skipped (n + 1)]) qs) ∧
    (process_barcode_queries res exampleQueryFile).output =
      [((23 : ℚ), mkRat (-11) 50), (67, mkRat 47 25), (10, mkRat 23 25)].map
        (fun q => renderQueryLine q (res.slice q)) := by
  constructor
  · exact fun line rest n logs qs h => processLines_cons_skip line rest n logs qs h
  · have h : processLines exampleQueryFile 0 [] [] =
        ([LogMsg.skipped 4],
          some [((23 : ℚ), mkRat (-11) 50), (67, mkRat 47 25), (10, mkRat 23 25)]) := by
      decide
    rw [process_barcode_queries_of_some res _ _ _ h]

theorem skip_blank_and_comment_witness :
    processLines ["#c".toList] 0 [] [] = processLines [] 1 ([] ++ [LogMsg.skipped 1]) [] ∧
    (process_barcode_queries ⟨fun _ => []⟩ exampleQueryFile).output =
      [((23 : ℚ), mkRat (-11) 50), (67, mkRat 47 25), (10, mkRat 23 25)].map
        (fun q => renderQueryLine q ((⟨fun _ => []⟩ : ComputationResult).slice q)) :=
  ⟨(skip_blank_and_comment ⟨fun _ => []⟩).1 "#c".toList [] 0 [] [] (by decide),
    (skip_blank_and_comment ⟨fun _ => []⟩).2⟩

/-- C3: `query_barcodes` returns exactly one barcode per query, and
`process_barcode_queries` prints exactly one output line per valid query
line, in the order the queries appear in the file. -/
theorem one_barcode_per_query :
    (∀ (res : ComputationResult) (queries : List (ℚ × ℚ)),
      (query_barcodes res queries).length = queries.length) ∧
    (∀ (res : ComputationResult) (fileLines : List (List Char)) (logs : List LogMsg)
        (qs : List (ℚ × ℚ)), processLines fileLines 0 [] [] = (logs, some qs) →
      (process_barcode_queries res fileLines).output =
        qs.map (fun q => renderQueryLine q (res.slice q))) := by
  constructor
  · intro res queries
    simp [query_barcodes]
  · intro res fileLines logs qs h
    rw [process_barcode_queries_of_some res _ _ _ h]

theorem one_barcode_per_query_witness :
    (query_barcodes ⟨fun _ => []⟩ [(1, 2)]).length = [((1 : ℚ), (2 : ℚ))].length ∧
    (process_barcode_queries ⟨fun _ => []⟩ ["1 2".toList]).output =
      [((1 : ℚ), (2 : ℚ))].map
        (fun q => renderQueryLine q ((⟨fun _ => []⟩ : ComputationResult).slice q)) :=
  ⟨one_barcode_per_query.1 _ _,
    one_barcode_per_query.2 ⟨fun _ => []⟩ ["1 2".toList] [] [(1, 2)] (by decide)⟩

/-- C4: every printed output line is `"<angle> <offset>: "` followed by the
bars, each rendered as birth, space, death, `" x"`, multiplicity, with
consecutive bars separated by `", "`, and an infinite death rendered as the
token `inf`. -/
theorem barcode_line_rendering (query : ℚ × ℚ) (barcode : List Bar) :
    renderQueryLine query barcode = lineRenderingSpec query barcode := by
  unfold renderQueryLine lineRenderingSpec
  rw [renderBars_eq_intercalate]
  rfl

/-- C5: every line of the file is validated and parsed before any query is
evaluated, so a file with an invalid line anywhere produces no barcode
output at all, even for valid lines earlier in the file. -/
theorem validate_before_query (res : ComputationResult) (pre rest : List (List Char))
    (bad : List Char) (logs : List LogMsg) (qs : List (ℚ × ℚ))
    (hpre : processLines pre 0 [] [] = (logs, some qs))
    (hskip : isSkipLine (stripLeading bad) = false)
    (hbad : extractTwo (stripLeading bad) = none ∨
      ∃ a o, extractTwo (stripLeading bad) = some (a, o) ∧ (a < 0 ∨ a > 90)) :
    (process_barcode_queries res (pre ++ bad :: rest)).output = [] := by
  have happ := processLines_append pre (bad :: rest) 0 [] logs [] qs hpre
  rcases hbad with hnone | ⟨a, o, hsome, hrange⟩
  · have h : processLines (pre ++ bad :: rest) 0 [] [] =
        (logs ++ [LogMsg.parseError (pre.length + 1)], none) := by
      rw [happ, Nat.zero_add, processLines_cons_parseFail _ _ _ _ _ hskip hnone]
    rw [process_barcode_queries_of_none res _ _ h]
  · have h : processLines (pre ++ bad :: rest) 0 [] [] =
        (logs ++ [LogMsg.angleError (pre.length + 1)], none) := by
      rw [happ, Nat.zero_add, processLines_cons_query _ _ _ _ _ _ _ hskip hsome,
        if_pos hrange]
    rw [process_barcode_queries_of_none res _ _ h]

theorem validate_before_query_witness :
    (process_barcode_queries ⟨fun _ => []⟩ (["0 1".toList] ++ "abc".toList :: [])).output
      = [] :=
  validate_before_query ⟨fun _ => []⟩ ["0 1".toList] [] "abc".toList [] [(0, 1)]
    (by decide) (by decide) (Or.inl (by decide))

/-- C6: a non-blank, non-comment line from which two numbers cannot be
parsed produces a parse error carrying the line number, no barcode entry,
and aborts the rest of the file. -/
theorem parse_error_aborts (res : ComputationResult) (pre rest : List (List Char))
    (line : List Char) (logs : List LogMsg) (qs : List (ℚ × ℚ))
    (hpre : processLines pre 0 [] [] = (logs, some qs))
    (hskip : isSkipLine (stripLeading line) = false)
    (hparse : extractTwo (stripLeading line) = none) :
    process_barcode_queries res (pre ++ line :: rest) =
      ⟨logs ++ [LogMsg.parseError (pre.length + 1)], []⟩ := by
  have happ := processLines_append pre (line :: rest) 0 [] logs [] qs hpre
  refine process_barcode_queries_of_none res _ _ ?_
  rw [happ, Nat.zero_add, processLines_cons_parseFail _ _ _ _ _ hskip hparse]

theorem parse_error_aborts_witness :
    process_barcode_queries ⟨fun _ => []⟩ ([] ++ "xyz".toList :: ["1 2".toList]) =
      ⟨[LogMsg.parseError 1], []⟩ :=
  parse_error_aborts ⟨fun _ => []⟩ [] ["1 2".toList] "xyz".toList [] []
    (by decide) (by decide) (by decide)

/-- C7: an output artifact file that cannot be opened for writing is
reported as a thrown error naming the file — in `write_msgpack_file` and
`write_template_points_file` as `"Could not open <file> for writing."`, in
both saving steps of `main` as `"Error: Unable to write file:<file>"` —
and nothing is written. -/
theorem unwritable_output_reported (canOpen : String → Bool) (file_name : String)
    (params : InputParameters) :
    (canOpen file_name = false →
      write_msgpack_file canOpen file_name =
        Except.error ("Could not open " ++ file_name ++ " for writing.") ∧
      write_template_points_file canOpen file_name =
        Except.error ("Could not open " ++ file_name ++ " for writing.")) ∧
    (params.outputFile ≠ "" → params.fileName ≠ params.outputFile →
      canOpen params.outputFile = false →
      arrangement_save_step canOpen params =
        ⟨[], some ("Error: Unable to write file:" ++ params.outputFile)⟩ ∧
      betti_save_step canOpen params =
        ⟨[], some ("Error: Unable to write file:" ++ params.outputFile)⟩) := by
  constructor
  · intro h
    constructor <;> simp [write_msgpack_file, write_template_points_file, h]
  · intro h1 h2 h3
    constructor
    · simp [arrangement_save_step, h1, h2, h3]
    · simp [betti_save_step, h1, Ne.symm h2, h3]

theorem unwritable_output_reported_witness :
    (write_msgpack_file (fun _ => false) "out" =
        Except.error ("Could not open " ++ "out" ++ " for writing.") ∧
      write_template_points_file (fun _ => false) "out" =
        Except.error ("Could not open " ++ "out" ++ " for writing.")) ∧
    (arrangement_save_step (fun _ => false) ⟨"in", "out", "msgpack"⟩ =
        ⟨[], some ("Error: Unable to write file:" ++ "out")⟩ ∧
      betti_save_step (fun _ => false) ⟨"in", "out", "msgpack"⟩ =
        ⟨[], some ("Error: Unable to write file:" ++ "out")⟩) :=
  ⟨(unwritable_output_reported (fun _ => false) "out" ⟨"in", "out", "msgpack"⟩).1 rfl,
    (unwritable_output_reported (fun _ => false) "out" ⟨"in", "out", "msgpack"⟩).2
      (by decide) (by decide) rfl⟩

/-- C8: `process_barcode_queries` is a deterministic function of the
computation result and the query-file contents: two runs on equal file
contents, with computation results answering every query identically,
produce identical output. -/
theorem barcode_query_deterministic (res₁ res₂ : ComputationResult)
    (fileLines₁ fileLines₂ : List (List Char))
    (hres : ∀ q, res₁.slice q = res₂.slice q) (hfl : fileLines₁ = fileLines₂) :
    process_barcode_queries res₁ fileLines₁ = process_barcode_queries res₂ fileLines₂ := by
  subst hfl
  have hslice : res₁.slice = res₂.slice := funext hres
  unfold process_barcode_queries query_barcodes
  rw [hslice]

theorem barcode_query_deterministic_witness :
    process_barcode_queries ⟨fun _ => []⟩ ["1 2".toList] =
      process_barcode_queries ⟨fun _ => []⟩ ["1 2".toList] :=
  barcode_query_deterministic ⟨fun _ => []⟩ ⟨fun _ => []⟩ ["1 2".toList] ["1 2".toList]
    (fun _ => rfl) rfl

/-- C9: under the invariant that each template point has a nonzero
multiplicity in some degree, `print_betti` prints the sections `xi_0`,
`xi_1`, `xi_2` in order, each section holding exactly the points with
positive multiplicity in that degree, and every template point appears in
at least one section. -/
theorem print_betti_sections (pts : List TemplatePoint)
    (hinv : ∀ p ∈ pts, 0 < p.zero ∨ 0 < p.one ∨ 0 < p.two) :
    print_betti pts =
      BettiLine.title :: (BettiLine.header 0 :: printBettiSection pts 0 ++
        (BettiLine.header 1 :: printBettiSection pts 1 ++
          BettiLine.header 2 :: printBettiSection pts 2)) ∧
    (∀ xi, printBettiSection pts xi =
      (pts.filter (fun p => 0 < bettiValue xi p)).map
        (fun p => BettiLine.point p.x p.y (bettiValue xi p))) ∧
    (∀ p ∈ pts, ∃ xi, xi < 3 ∧ 0 < bettiValue xi p ∧
      BettiLine.point p.x p.y (bettiValue xi p) ∈ print_betti pts) := by
  refine ⟨?_, fun xi => printBettiSection_eq_filter pts xi, ?_⟩
  · simp [print_betti, List.range_succ]
  · intro p hp
    rcases hinv p hp with h | h | h
    · exact ⟨0, by omega, by simpa [bettiValue] using h,
        point_mem_print_betti pts p 0 (by omega) hp (by simpa [bettiValue] using h)⟩
    · exact ⟨1, by omega, by simpa [bettiValue] using h,
        point_mem_print_betti pts p 1 (by omega) hp (by simpa [bettiValue] using h)⟩
    · exact ⟨2, by omega, by simpa [bettiValue] using h,
        point_mem_print_betti pts p 2 (by omega) hp (by simpa [bettiValue] using h)⟩

theorem print_betti_sections_witness :
    print_betti [⟨0, 0, 1, 0, 0⟩] =
      BettiLine.title :: (BettiLine.header 0 :: printBettiSection [⟨0, 0, 1, 0, 0⟩] 0 ++
        (BettiLine.header 1 :: printBettiSection [⟨0, 0, 1, 0, 0⟩] 1 ++
          BettiLine.header 2 :: printBettiSection [⟨0, 0, 1, 0, 0⟩] 2)) ∧
    (∀ xi, printBettiSection [⟨0, 0, 1, 0, 0⟩] xi =
      ([⟨0, 0, 1, 0, 0⟩].filter (fun p => 0 < bettiValue xi p)).map
        (fun p => BettiLine.point p.x p.y (bettiValue xi p))) ∧
    (∀ p ∈ [(⟨0, 0, 1, 0, 0⟩ : TemplatePoint)], ∃ xi, xi < 3 ∧ 0 < bettiValue xi p ∧
      BettiLine.point p.x p.y (bettiValue xi p) ∈ print_betti [⟨0, 0, 1, 0, 0⟩]) :=
  print_betti_sections [⟨0, 0, 1, 0, 0⟩] (by decide)

/-- C10: `main` never overwrites its input file: the input file name is
never among the files written by either saving step, and when the output
file equals the input file (or none is given) neither step writes
anything or throws. -/
theorem never_overwrite_input (canOpen : String → Bool) (params : InputParameters) :
    (params.fileName ∉ (arrangement_save_step canOpen params).writes ∧
      params.fileName ∉ (betti_save_step canOpen params).writes) ∧
    ((params.outputFile = params.fileName ∨ params.outputFile = "") →
      arrangement_save_step canOpen params = ⟨[], none⟩ ∧
      betti_save_step canOpen params = ⟨[], none⟩) := by
  constructor
  · constructor
    · unfold arrangement_save_step write_msgpack_file
      split_ifs with h1 h2 h3 h4 <;> simp_all
    · unfold betti_save_step write_msgpack_file
      split_ifs with h1 h2 <;> simp_all
      exact fun hc => h1.2 hc.symm
  · rintro (h | h)
    · refine ⟨?_, ?_⟩
      · unfold arrangement_save_step
        rw [if_neg (by rintro ⟨hg1, hg2⟩; exact hg2 h.symm)]
      · unfold betti_save_step
        rw [if_neg (by rintro ⟨hg1, hg2⟩; exact hg2 h)]
    · refine ⟨?_, ?_⟩
      · unfold arrangement_save_step
        rw [if_neg (by rintro ⟨hg1, hg2⟩; exact hg1 h)]
      · unfold betti_save_step
        rw [if_neg (by rintro ⟨hg1, hg2⟩; exact hg1 h)]

theorem never_overwrite_input_witness :
    (("f" : String) ∉ (arrangement_save_step (fun _ => true) ⟨"f", "f", "msgpack"⟩).writes ∧
      ("f" : String) ∉ (betti_save_step (fun _ => true) ⟨"f", "f", "msgpack"⟩).writes) ∧
    (arrangement_save_step (fun _ => true) ⟨"f", "f", "msgpack"⟩ = ⟨[], none⟩ ∧
      betti_save_step (fun _ => true) ⟨"f", "f", "msgpack"⟩ = ⟨[], none⟩) :=
  ⟨(never_overwrite_input (fun _ => true) ⟨"f", "f", "msgpack"⟩).1,
    (never_overwrite_input (fun _ => true) ⟨"f", "f", "msgpack"⟩).2 (Or.inl rfl)⟩

end Rivet
